import Mathlib

/-!
Shallow embedding of the pnet-tool core (src/src-tauri/src/main.rs) and proofs
about it.  The embedding models:

* the deep-link types TelnetAction / TelnetLaunchRequest and the functions
  parse_telnet_url and consume_pending_telnet_actions;
* the PTY session registry (a mutex-guarded HashMap from session id to
  PtyEntry) as an association list with explicit state passing;
* the four session-control commands start_pty / write_pty / resize_pty /
  kill_pty, with the fallible external effects (openpty, spawn_command,
  try_clone_reader, take_writer, write_all, resize, child.kill) made explicit
  as parameters holding the effect's outcome;
* the per-session bridge reader thread as a pure function from the sequence
  of read results delivered by the pty to the sequence of emitted events,
  including a faithful model of String::from_utf8_lossy.
-/

set_option autoImplicit false

namespace PnetTool

/-- Embedding of struct TelnetLaunchRequest (main.rs lines 13-20): a host,
an optional port and an optional label. -/
structure TelnetLaunchRequest where
  host : String
  port : Option Nat
  label : Option String
deriving DecidableEq

/-- Embedding of enum TelnetAction (main.rs lines 7-11).  The single variant
Open carries a launch request; it is called openAction here because open is a
Lean keyword. -/
inductive TelnetAction where
  | openAction (request : TelnetLaunchRequest)
deriving DecidableEq

/-- Embedding of consume_pending_telnet_actions (main.rs lines 52-58).  The
PendingActions state (a Mutex over a Vec) is passed explicitly; the command
clones the accumulated vector, clears it, and returns the clone.  The result
is the pair (returned actions, queue state after the call). -/
def consume_pending_telnet_actions (pending : List TelnetAction) :
    List TelnetAction × List TelnetAction :=
  let actions := pending
  (actions, [])

/-- View of a parsed URL as used by parse_telnet_url: the url crate's
Url::parse result exposes host_str() and port().  Url::parse itself is
external library code, so it is abstracted as a function parameter of
parse_telnet_url below. -/
structure ParsedUrl where
  host_str : Option String
  port : Option Nat
deriving DecidableEq

/-- Whitespace test used by the model of str::trim, covering the ASCII
whitespace characters (the inputs exercised here are ASCII; Rust trims the
full Unicode White_Space set, of which this is the relevant subset). -/
def isWs (c : Char) : Bool := c = ' ' || c = '\t' || c = '\n' || c = '\r'

/-- Embedding of Rust's str::trim on the character list of a string: strip
whitespace from both ends. -/
def rustTrim (s : String) : String :=
  String.mk (((s.data.dropWhile isWs).reverse.dropWhile isWs).reverse)

/-- ASCII case mapping used by the model of str::to_lowercase.  Rust lowers
the full Unicode set; the only observer here is the test against the ASCII
prefix "telnet://", on which the two mappings agree. -/
def asciiLower (c : Char) : Char :=
  if 'A' ≤ c ∧ c ≤ 'Z' then Char.ofNat (c.toNat + 0x20) else c

/-- Embedding of Rust's str::to_lowercase. -/
def rustToLower (s : String) : String := String.mk (s.data.map asciiLower)

/-- Embedding of Rust's str::starts_with for a string pattern. -/
def rustStartsWith (s pat : String) : Bool := List.isPrefixOf pat.data s.data

/-- Embedding of the scheme coercion inside parse_telnet_url (main.rs lines
42-45): when the lowercased input does not start with "telnet://" the scheme
is prepended. -/
def coerceScheme (work : String) : String :=
  if rustStartsWith (rustToLower work) "telnet://" then work else "telnet://" ++ work

/-- Embedding of the tail of parse_telnet_url (main.rs lines 46-49): take the
parse result, require a host, and build a launch request carrying the URL's
host, its explicit port, and no label. -/
def requestOfParsed (parsed : Option ParsedUrl) : Option TelnetLaunchRequest :=
  match parsed with
  | none => none
  | some p =>
    match p.host_str with
    | none => none
    | some host => some { host := host, port := p.port, label := none }

/-- Embedding of parse_telnet_url (main.rs lines 35-50), parameterized by
urlParse, the abstraction of the external Url::parse composed with
Result::ok. -/
def parse_telnet_url (urlParse : String → Option ParsedUrl) (url : String) :
    Option TelnetLaunchRequest :=
  let work := rustTrim url
  if work = "" then none
  else requestOfParsed (urlParse (coerceScheme work))

/-- Embedding of portable_pty's PtySize as used in main.rs (lines 122 and
173): columns, rows and the two pixel fields, always passed as 0. -/
structure PtySize where
  cols : Nat
  rows : Nat
  pixel_width : Nat
  pixel_height : Nat
deriving DecidableEq

/-- Embedding of struct PtyEntry (main.rs lines 29-33).  child abstracts the
Box of the subprocess handle (an opaque token here); size models the geometry
of the pty pair held by the entry; written models the stream of bytes
delivered so far to the entry's writer (the observable effect of the writer
handle). -/
structure PtyEntry where
  child : Nat
  size : PtySize
  written : List Nat
deriving DecidableEq

/-- Embedding of the HashMap inside PtyRegistry (main.rs line 28) as an
association list from session id to entry. -/
abbrev PtyRegistry := List (String × PtyEntry)

/-- Lookup in the registry: the first entry whose key equals the queried id,
modelling HashMap::get / get_mut (keys are unique by construction, every
insertion uses a fresh nanoid). -/
def lookupReg : PtyRegistry → String → Option PtyEntry
  | [], _ => none
  | (k, e) :: rest, sid => if k = sid then some e else lookupReg rest sid

/-- Removal from the registry, modelling HashMap::remove. -/
def eraseReg : PtyRegistry → String → PtyRegistry
  | [], _ => []
  | (k, e) :: rest, sid =>
    if k = sid then eraseReg rest sid else (k, e) :: eraseReg rest sid

/-- Insertion into the registry, modelling HashMap::insert (replaces any
previous binding of the same key). -/
def insertReg (reg : PtyRegistry) (sid : String) (e : PtyEntry) : PtyRegistry :=
  (sid, e) :: eraseReg reg sid

/-- In-place mutation of the entry bound to sid, modelling what happens to
the entry found by HashMap::get_mut / get. -/
def updateReg : PtyRegistry → String → (PtyEntry → PtyEntry) → PtyRegistry
  | [], _, _ => []
  | (k, e) :: rest, sid, f =>
    if k = sid then (k, f e) :: updateReg rest sid f
    else (k, e) :: updateReg rest sid f

/-- Embedding of write_pty (main.rs lines 160-167).  Lock acquisition is
modelled as succeeding (a poisoned lock needs a prior panic, outside this
model).  wres is the outcome of the OS-level write_all on the entry's writer:
none for success, some e for an I/O error carrying message e.  On success all
bytes of data are appended, in order, to the entry's delivered stream. -/
def write_pty (wres : Option String) (reg : PtyRegistry) (sid : String)
    (data : List Nat) : Except String PtyRegistry :=
  match lookupReg reg sid with
  | none => Except.error "pty not found"
  | some _ =>
    match wres with
    | some e => Except.error ("write: " ++ e)
    | none =>
      Except.ok (updateReg reg sid (fun en => { en with written := en.written ++ data }))

/-- Embedding of resize_pty (main.rs lines 169-175).  rres is the outcome of
the OS-level resize call on the pty master: none for success, some e for a
failure carrying message e.  On success the entry's pty geometry becomes the
requested size (pixel fields passed as 0, as in the source). -/
def resize_pty (rres : Option String) (reg : PtyRegistry) (sid : String)
    (cols rows : Nat) : Except String PtyRegistry :=
  match lookupReg reg sid with
  | none => Except.error "pty not found"
  | some _ =>
    match rres with
    | some e => Except.error ("resize: " ++ e)
    | none =>
      Except.ok (updateReg reg sid (fun en =>
        { en with size := { cols := cols, rows := rows, pixel_width := 0, pixel_height := 0 } }))

/-- Embedding of kill_pty (main.rs lines 177-184).  killRes is the outcome of
child.kill(); the source discards it (a let binding of an underscore), so it
appears here only to be dropped.  The entry, when present, is removed and the
command returns success; an absent id is not an error. -/
def kill_pty (reg : PtyRegistry) (sid : String) (killRes : Except String Unit) :
    PtyRegistry × Except String Unit :=
  match lookupReg reg sid with
  | some _ =>
    let _ := killRes
    (eraseReg reg sid, Except.ok ())
  | none => (reg, Except.ok ())

/-- Embedding of portable_pty's CommandBuilder as used by start_pty: the
program name and its argument list. -/
structure CommandBuilder where
  program : String
  args : List String
deriving DecidableEq

/-- Outcomes of the external effects performed by start_pty, in the order the
source performs them: openpty, slave.spawn_command, master.try_clone_reader,
master.take_writer (each none for success, some e for failure with message
e), lock acquisition (lockFail true means the mutex was poisoned), and the
fresh values produced on success: the nanoid session id and the spawned child
handle. -/
structure StartEnv where
  openptyErr : Option String
  spawnErr : Option String
  readerErr : Option String
  writerErr : Option String
  lockFail : Bool
  newId : String
  newChild : Nat
deriving DecidableEq

/-- Observable result of a successful start_pty call: the updated registry,
the returned session id, the command line handed to spawn_command, and the
size handed to openpty. -/
structure StartOutcome where
  registry : PtyRegistry
  id : String
  cmd : CommandBuilder
  size : PtySize
deriving DecidableEq

/-- Embedding of start_pty (main.rs lines 114-152).  The command is built as
CommandBuilder::new("telnet") with the host and port.unwrap_or(23) as
arguments; the pty is opened with cols.unwrap_or(80) by rows.unwrap_or(24)
and zero pixel sizes; each fallible external step maps its error into the
same message the source formats; on success the fresh entry is inserted under
the fresh id and the id is returned.  The bridge thread spawned by the source
is modelled separately by bridgeRun below. -/
def start_pty (env : StartEnv) (reg : PtyRegistry) (host : String)
    (port cols rows : Option Nat) : Except String StartOutcome :=
  let cmd : CommandBuilder := { program := "telnet", args := [host, toString (port.getD 23)] }
  let size : PtySize :=
    { cols := cols.getD 80, rows := rows.getD 24, pixel_width := 0, pixel_height := 0 }
  match env.openptyErr with
  | some e => Except.error ("openpty: " ++ e)
  | none =>
    match env.spawnErr with
    | some e => Except.error ("spawn telnet: " ++ e)
    | none =>
      match env.readerErr with
      | some e => Except.error ("reader: " ++ e)
      | none =>
        match env.writerErr with
        | some e => Except.error ("writer: " ++ e)
        | none =>
          if env.lockFail then Except.error "lock ptys"
          else
            Except.ok
              { registry :=
                  insertReg reg env.newId
                    { child := env.newChild, size := size, written := [] }
                id := env.newId
                cmd := cmd
                size := size }

/-- Continuation byte test of the UTF-8 validation used by
String::from_utf8_lossy: a byte in 0x80..=0xBF. -/
def isCont (b : Nat) : Bool := decide (0x80 ≤ b ∧ b ≤ 0xBF)

/-- Admissible second byte of a three-byte UTF-8 sequence, per the table in
Rust's core::str validation (excludes overlong forms and surrogates). -/
def utf8Valid3 (b c1 : Nat) : Bool :=
  decide ((b = 0xE0 ∧ 0xA0 ≤ c1 ∧ c1 ≤ 0xBF) ∨
    (0xE1 ≤ b ∧ b ≤ 0xEC ∧ 0x80 ≤ c1 ∧ c1 ≤ 0xBF) ∨
    (b = 0xED ∧ 0x80 ≤ c1 ∧ c1 ≤ 0x9F) ∨
    (0xEE ≤ b ∧ b ≤ 0xEF ∧ 0x80 ≤ c1 ∧ c1 ≤ 0xBF))

/-- Admissible second byte of a four-byte UTF-8 sequence, per the table in
Rust's core::str validation (excludes overlong forms and values above
U+10FFFF). -/
def utf8Valid4 (b c1 : Nat) : Bool :=
  decide ((b = 0xF0 ∧ 0x90 ≤ c1 ∧ c1 ≤ 0xBF) ∨
    (0xF1 ≤ b ∧ b ≤ 0xF3 ∧ 0x80 ≤ c1 ∧ c1 ≤ 0xBF) ∨
    (b = 0xF4 ∧ 0x80 ≤ c1 ∧ c1 ≤ 0x8F))

/-- Unicode replacement character U+FFFD, substituted by from_utf8_lossy for
each maximal invalid subsequence. -/
def replacementChar : Char := Char.ofNat 0xFFFD

/-- Decoding loop of String::from_utf8_lossy over a byte list, with the
substitution-of-maximal-subparts policy of Rust's Utf8Chunks: an invalid lead
byte or an invalid first continuation consumes one byte, a failure after k
valid bytes consumes those k bytes, a truncated sequence at end of input
consumes the rest; each failure yields one U+FFFD.  The fuel argument makes
the recursion structural; every step consumes at least one byte, so fuel
equal to the list length (as passed by from_utf8_lossy) never runs out. -/
def utf8LossyAux : Nat → List Nat → List Char
  | _, [] => []
  | 0, _ :: _ => []
  | fuel + 1, b :: rest =>
    if b < 0x80 then
      Char.ofNat b :: utf8LossyAux fuel rest
    else if 0xC2 ≤ b ∧ b ≤ 0xDF then
      match rest with
      | [] => [replacementChar]
      | c1 :: rest1 =>
        if isCont c1 then
          Char.ofNat ((b % 0x20) * 0x40 + c1 % 0x40) :: utf8LossyAux fuel rest1
        else
          replacementChar :: utf8LossyAux fuel (c1 :: rest1)
    else if 0xE0 ≤ b ∧ b ≤ 0xEF then
      match rest with
      | [] => [replacementChar]
      | c1 :: rest1 =>
        if utf8Valid3 b c1 then
          match rest1 with
          | [] => [replacementChar]
          | c2 :: rest2 =>
            if isCont c2 then
              Char.ofNat ((b % 0x10) * 0x1000 + (c1 % 0x40) * 0x40 + c2 % 0x40) ::
                utf8LossyAux fuel rest2
            else
              replacementChar :: utf8LossyAux fuel (c2 :: rest2)
        else
          replacementChar :: utf8LossyAux fuel (c1 :: rest1)
    else if 0xF0 ≤ b ∧ b ≤ 0xF4 then
      match rest with
      | [] => [replacementChar]
      | c1 :: rest1 =>
        if utf8Valid4 b c1 then
          match rest1 with
          | [] => [replacementChar]
          | c2 :: rest2 =>
            if isCont c2 then
              match rest2 with
              | [] => [replacementChar]
              | c3 :: rest3 =>
                if isCont c3 then
                  Char.ofNat ((b % 0x8) * 0x40000 + (c1 % 0x40) * 0x1000 +
                      (c2 % 0x40) * 0x40 + c3 % 0x40) :: utf8LossyAux fuel rest3
                else
                  replacementChar :: utf8LossyAux fuel (c3 :: rest3)
            else
              replacementChar :: utf8LossyAux fuel (c2 :: rest2)
        else
          replacementChar :: utf8LossyAux fuel (c1 :: rest1)
    else
      replacementChar :: utf8LossyAux fuel rest

/-- Embedding of String::from_utf8_lossy as used on each chunk read by the
bridge thread (main.rs line 143). -/
def from_utf8_lossy (bytes : List Nat) : String :=
  String.mk (utf8LossyAux bytes.length bytes)

/-- One result of reader.read in the bridge loop: either a chunk of bytes
(empty for a zero-byte read, the end-of-stream signal) or a read error. -/
inductive ReadResult where
  | ok (chunk : List Nat)
  | err
deriving DecidableEq

/-- One event emitted by the bridge thread to the consumer: a data event
carrying the session id and the lossily decoded chunk, or the terminal exit
event carrying the id. -/
inductive PtyEvent where
  | data (sid : String) (payload : String)
  | exit (sid : String)
deriving DecidableEq

/-- Embedding of the read loop of the bridge thread (main.rs lines 139-147):
each positive read emits one data event and continues; a zero-byte read or a
read error leaves the loop.  The input list is the sequence of read results
the pty delivers; its end also represents stream closure. -/
def bridgeLoop (sid : String) : List ReadResult → List PtyEvent
  | [] => []
  | ReadResult.err :: _ => []
  | ReadResult.ok [] :: _ => []
  | ReadResult.ok (b :: bs) :: rest =>
    PtyEvent.data sid (from_utf8_lossy (b :: bs)) :: bridgeLoop sid rest

/-- Embedding of the whole bridge thread body (main.rs lines 137-149): run
the read loop, then emit the single exit event for the session. -/
def bridgeRun (sid : String) (reads : List ReadResult) : List PtyEvent :=
  bridgeLoop sid reads ++ [PtyEvent.exit sid]

/-- State shared by the threads of the application: the session registry and
the stream of events emitted so far to the consumer. -/
structure SystemState where
  registry : PtyRegistry
  emitted : List PtyEvent
deriving DecidableEq

/-- Effect of a complete bridge-thread execution on the shared state.  The
thread's closure (main.rs lines 137-149) captures only the moved reader, a
clone of the app handle used to emit, and a clone of the id: it appends its
events and touches nothing else, in particular not the registry. -/
def bridgeThread (st : SystemState) (sid : String) (reads : List ReadResult) :
    SystemState :=
  { st with emitted := st.emitted ++ bridgeRun sid reads }

/-- Concatenation of a sequence of write payloads in call order. -/
def joinBytes : List (List Nat) → List Nat
  | [] => []
  | d :: ds => d ++ joinBytes ds

/-- A sequence of write_pty calls on the same session, each with a
successful underlying OS write, stopping at the first failing call. -/
def write_seq (reg : PtyRegistry) (sid : String) :
    List (List Nat) → Except String PtyRegistry
  | [] => Except.ok reg
  | d :: ds =>
    match write_pty none reg sid d with
    | Except.error e => Except.error e
    | Except.ok reg2 => write_seq reg2 sid ds

/-- Environment in which every external effect of start_pty succeeds and the
generated session id is "S1". -/
def okEnv : StartEnv :=
  { openptyErr := none, spawnErr := none, readerErr := none, writerErr := none,
    lockFail := false, newId := "S1", newChild := 1 }

/-- Example abstract URL parser used to exercise parse_telnet_url on one
concrete input. -/
def exampleUrlParse : String → Option ParsedUrl :=
  fun s =>
    if s = "telnet://Example.com:2323" then
      some { host_str := some "example.com", port := some 2323 }
    else none

/-- Lookup after an in-place update: the updated key sees its entry mapped,
every other key is untouched. -/
theorem lookupReg_update (sid k : String) (f : PtyEntry → PtyEntry) :
    ∀ reg : PtyRegistry,
      lookupReg (updateReg reg sid f) k =
        if k = sid then (lookupReg reg k).map f else lookupReg reg k := by
  intro reg
  induction reg with
  | nil => rcases eq_or_ne k sid with h | h <;> simp [updateReg, lookupReg, h]
  | cons hd tl ih =>
    obtain ⟨a, e⟩ := hd
    by_cases has : a = sid
    · subst has
      by_cases hak : a = k
      · subst hak
        simp [updateReg, lookupReg]
      · have hka : k ≠ a := fun h => hak h.symm
        simp [updateReg, lookupReg, hak, hka, ih]
    · by_cases hak : a = k
      · subst hak
        have hks : a ≠ sid := has
        simp [updateReg, lookupReg, has, hks, fun h => has (h : a = sid)]
      · have hka : k ≠ a := fun h => hak h.symm
        simp [updateReg, lookupReg, has, hak, hka, ih]

/-- Lookup after a removal: the removed key is gone, every other key is
untouched. -/
theorem lookupReg_erase (sid k : String) :
    ∀ reg : PtyRegistry,
      lookupReg (eraseReg reg sid) k =
        if k = sid then none else lookupReg reg k := by
  intro reg
  induction reg with
  | nil => rcases eq_or_ne k sid with h | h <;> simp [eraseReg, lookupReg, h]
  | cons hd tl ih =>
    obtain ⟨a, e⟩ := hd
    by_cases has : a = sid
    · subst has
      by_cases hak : a = k
      · subst hak
        simp [eraseReg, lookupReg, ih]
      · have hka : k ≠ a := fun h => hak h.symm
        simp [eraseReg, lookupReg, hak, hka, ih]
    · by_cases hak : a = k
      · subst hak
        have hks : a ≠ sid := has
        simp [eraseReg, lookupReg, has, hks]
      · have hka : k ≠ a := fun h => hak h.symm
        simp [eraseReg, lookupReg, has, hak, hka, ih]

/-- Removing an absent key leaves the registry unchanged. -/
theorem eraseReg_eq_of_lookup_none :
    ∀ (reg : PtyRegistry) (sid : String),
      lookupReg reg sid = none → eraseReg reg sid = reg := by
  intro reg sid h
  induction reg with
  | nil => simp [eraseReg]
  | cons hd tl ih =>
    obtain ⟨a, e⟩ := hd
    by_cases has : a = sid
    · subst has
      simp [lookupReg] at h
    · simp [lookupReg, has] at h
      simp [eraseReg, has, ih h]

/-- Lookup after an insertion finds the inserted entry. -/
theorem lookupReg_insert (reg : PtyRegistry) (sid : String) (e : PtyEntry) :
    lookupReg (insertReg reg sid e) sid = some e := by
  simp [insertReg, lookupReg]

/-- Every event produced by the read loop proper is a data event for the
session, with some decoded payload. -/
theorem bridgeLoop_mem (sid : String) :
    ∀ (reads : List ReadResult) (e : PtyEvent),
      e ∈ bridgeLoop sid reads → ∃ s, e = PtyEvent.data sid s := by
  intro reads
  induction reads with
  | nil => intro e h; simp [bridgeLoop] at h
  | cons r rest ih =>
    intro e h
    cases r with
    | err => simp [bridgeLoop] at h
    | ok chunk =>
      cases chunk with
      | nil => simp [bridgeLoop] at h
      | cons b bs =>
        simp [bridgeLoop] at h
        rcases h with h | h
        · exact ⟨from_utf8_lossy (b :: bs), h⟩
        · exact ih e h

/-- Inversion of a successful start_pty call: the outcome records the telnet
command with the defaulted port, the pty size with the defaulted dimensions,
and the registry extended with the fresh entry under the fresh id. -/
theorem start_pty_ok_inv (env : StartEnv) (reg : PtyRegistry) (host : String)
    (port cols rows : Option Nat) (out : StartOutcome)
    (h : start_pty env reg host port cols rows = Except.ok out) :
    out =
      { registry :=
          insertReg reg env.newId
            { child := env.newChild,
              size := { cols := cols.getD 80, rows := rows.getD 24,
                        pixel_width := 0, pixel_height := 0 },
              written := [] }
        id := env.newId
        cmd := { program := "telnet", args := [host, toString (port.getD 23)] }
        size := { cols := cols.getD 80, rows := rows.getD 24,
                  pixel_width := 0, pixel_height := 0 } } := by
  obtain ⟨oe, se, re, we, lf, nid, nch⟩ := env
  cases oe with
  | some e => simp [start_pty] at h
  | none =>
    cases se with
    | some e => simp [start_pty] at h
    | none =>
      cases re with
      | some e => simp [start_pty] at h
      | none =>
        cases we with
        | some e => simp [start_pty] at h
        | none =>
          cases lf with
          | true => simp [start_pty] at h
          | false =>
            simp [start_pty] at h
            exact h.symm

/-- C1: for every session started by start_pty, the bridge thread emits
exactly one exit event for the session's id, strictly after every data event
for that id and followed by no further data event; a read error exits the
loop with no distinct error event, exactly like a zero-byte read.  The run of
the thread decomposes as a list of data events for the id followed by the
single exit event, and a run beginning with a read error equals the run
beginning with a zero-byte read. -/
theorem C1_bridge_exit_once_last (sid : String) (reads : List ReadResult) :
    (∃ ds, bridgeRun sid reads = ds ++ [PtyEvent.exit sid] ∧
      ∀ e ∈ ds, ∃ s, e = PtyEvent.data sid s) ∧
    ∀ rest, bridgeRun sid (ReadResult.err :: rest) =
      bridgeRun sid (ReadResult.ok [] :: rest) := by
  constructor
  · exact ⟨bridgeLoop sid reads, rfl, fun e he => bridgeLoop_mem sid reads e he⟩
  · intro rest
    rfl

/-- Witness for C1 at a concrete session and read sequence. -/
theorem C1_witness :
    bridgeRun "s" [ReadResult.err] = bridgeRun "s" [ReadResult.ok []] :=
  (C1_bridge_exit_once_last "s" []).2 []

/-- C2: the bridge thread never modifies the registry (its effect on the
shared state leaves the registry component unchanged, so an entry present at
stream closure stays present), and of the commands that touch the registry,
write_pty and resize_pty preserve which ids are present while kill_pty
removes exactly the killed id. -/
theorem C2_bridge_registry_frame (st : SystemState) (sid : String)
    (reads : List ReadResult) :
    (bridgeThread st sid reads).registry = st.registry ∧
    (∀ (wres : Option String) (reg reg2 : PtyRegistry) (i : String)
        (d : List Nat), write_pty wres reg i d = Except.ok reg2 →
        ∀ k, (lookupReg reg2 k).isSome = (lookupReg reg k).isSome) ∧
    (∀ (rres : Option String) (reg reg2 : PtyRegistry) (i : String)
        (c r : Nat), resize_pty rres reg i c r = Except.ok reg2 →
        ∀ k, (lookupReg reg2 k).isSome = (lookupReg reg k).isSome) ∧
    (∀ (reg : PtyRegistry) (i : String) (kr : Except String Unit)
        (k : String), lookupReg (kill_pty reg i kr).1 k =
          if k = i then none else lookupReg reg k) := by
  refine ⟨rfl, ?_, ?_, ?_⟩
  · intro wres reg reg2 i d h k
    cases hl : lookupReg reg i with
    | none => simp [write_pty, hl] at h
    | some e0 =>
      cases wres with
      | some msg => simp [write_pty, hl] at h
      | none =>
        simp [write_pty, hl] at h
        subst h
        rw [lookupReg_update]
        rcases eq_or_ne k i with hk | hk <;> simp [hk]
  · intro rres reg reg2 i c r h k
    cases hl : lookupReg reg i with
    | none => simp [resize_pty, hl] at h
    | some e0 =>
      cases rres with
      | some msg => simp [resize_pty, hl] at h
      | none =>
        simp [resize_pty, hl] at h
        subst h
        rw [lookupReg_update]
        rcases eq_or_ne k i with hk | hk <;> simp [hk]
  · intro reg i kr k
    cases hl : lookupReg reg i with
    | some e0 => simp [kill_pty, hl, lookupReg_erase]
    | none =>
      rcases eq_or_ne k i with hk | hk <;> simp [kill_pty, hl, hk]

/-- Witness for C2: a concrete successful write leaves the lone session id
present. -/
theorem C2_witness :
    (lookupReg [("a", PtyEntry.mk 1 ⟨80, 24, 0, 0⟩ [104])] "a").isSome =
      (lookupReg [("a", PtyEntry.mk 1 ⟨80, 24, 0, 0⟩ [])] "a").isSome :=
  (C2_bridge_registry_frame ⟨[], []⟩ "s" []).2.1 none
    [("a", PtyEntry.mk 1 ⟨80, 24, 0, 0⟩ [])]
    [("a", PtyEntry.mk 1 ⟨80, 24, 0, 0⟩ [104])] "a" [104] (by rfl) "a"

/-- C3: on an id absent from the registry, write_pty and resize_pty fail with
the not-found error while kill_pty succeeds, for every outcome of the
underlying OS calls. -/
theorem C3_missing_id (reg : PtyRegistry) (sid : String) (data : List Nat)
    (wres rres : Option String) (cols rows : Nat) (kr : Except String Unit)
    (h : lookupReg reg sid = none) :
    write_pty wres reg sid data = Except.error "pty not found" ∧
    resize_pty rres reg sid cols rows = Except.error "pty not found" ∧
    (kill_pty reg sid kr).2 = Except.ok () := by
  refine ⟨?_, ?_, ?_⟩ <;> simp [write_pty, resize_pty, kill_pty, h]

/-- Witness for C3 on the empty registry. -/
theorem C3_witness :
    write_pty none [] "x" [104] = Except.error "pty not found" ∧
    resize_pty none [] "x" 1 1 = Except.error "pty not found" ∧
    (kill_pty [] "x" (Except.ok ())).2 = Except.ok () :=
  C3_missing_id [] "x" [104] none none 1 1 (Except.ok ()) (by rfl)

/-- C4: when port is absent the telnet subprocess is invoked with port
argument 23, and when cols or rows is absent the pty is allocated with 80
columns, respectively 24 rows. -/
theorem C4_start_defaults :
    (∀ (env : StartEnv) (reg : PtyRegistry) (host : String)
        (cols rows : Option Nat) (out : StartOutcome),
        start_pty env reg host none cols rows = Except.ok out →
        out.cmd = { program := "telnet", args := [host, "23"] }) ∧
    (∀ (env : StartEnv) (reg : PtyRegistry) (host : String)
        (port rows : Option Nat) (out : StartOutcome),
        start_pty env reg host port none rows = Except.ok out →
        out.size.cols = 80) ∧
    (∀ (env : StartEnv) (reg : PtyRegistry) (host : String)
        (port cols : Option Nat) (out : StartOutcome),
        start_pty env reg host port cols none = Except.ok out →
        out.size.rows = 24) := by
  refine ⟨?_, ?_, ?_⟩
  · intro env reg host cols rows out h
    rw [start_pty_ok_inv env reg host none cols rows out h]
    rfl
  · intro env reg host port rows out h
    rw [start_pty_ok_inv env reg host port none rows out h]
    rfl
  · intro env reg host port cols out h
    rw [start_pty_ok_inv env reg host port cols none out h]
    rfl

/-- Witness for C4 at a concrete call with every external effect succeeding
and port absent. -/
theorem C4_witness :
    ({ registry := [("S1", { child := 1, size := ⟨80, 24, 0, 0⟩, written := [] })],
       id := "S1", cmd := { program := "telnet", args := ["example.com", "23"] },
       size := ⟨80, 24, 0, 0⟩ } : StartOutcome).cmd =
      { program := "telnet", args := ["example.com", "23"] } :=
  C4_start_defaults.1 okEnv [] "example.com" (some 80) (some 24)
    { registry := [("S1", { child := 1, size := ⟨80, 24, 0, 0⟩, written := [] })],
      id := "S1", cmd := { program := "telnet", args := ["example.com", "23"] },
      size := ⟨80, 24, 0, 0⟩ } (by rfl)

/-- C5: every positive chunk of bytes read by the bridge loop yields exactly
one data event carrying the lossy UTF-8 decoding of exactly those bytes, and
the loop then continues with the remaining reads, whatever the bytes are, so
an invalid sequence never aborts the loop or drops the chunk. -/
theorem C5_lossy_data_event (sid : String) (b : Nat) (bs : List Nat)
    (rest : List ReadResult) :
    bridgeRun sid (ReadResult.ok (b :: bs) :: rest) =
      PtyEvent.data sid (from_utf8_lossy (b :: bs)) :: bridgeRun sid rest := rfl

/-- Witness for C5 on a chunk starting with an invalid byte: the event
payload replaces the invalid byte and keeps the rest, and the loop goes on to
emit the exit event. -/
theorem C5_witness :
    bridgeRun "s" [ReadResult.ok [0xFF, 104]] =
      PtyEvent.data "s" (from_utf8_lossy [0xFF, 104]) :: bridgeRun "s" [] ∧
    from_utf8_lossy [0xFF, 104] = String.mk [replacementChar, Char.ofNat 104] :=
  ⟨C5_lossy_data_event "s" 0xFF [104] [], by decide⟩

/-- C6: a successful write_pty delivers all submitted bytes to the session's
writer in order, and a sequence of successful writes delivers the
concatenation of the payloads in call order. -/
theorem C6_write_concat (reg reg2 : PtyRegistry) (sid : String)
    (e : PtyEntry) (ds : List (List Nat)) (h : lookupReg reg sid = some e)
    (hw : write_seq reg sid ds = Except.ok reg2) :
    lookupReg reg2 sid = some { e with written := e.written ++ joinBytes ds } := by
  induction ds generalizing reg e with
  | nil =>
    simp [write_seq] at hw
    subst hw
    simp [joinBytes, h]
  | cons d ds ih =>
    simp [write_seq, write_pty, h] at hw
    have hl : lookupReg (updateReg reg sid
        (fun en => { en with written := en.written ++ d })) sid =
        some { e with written := e.written ++ d } := by
      rw [lookupReg_update]
      simp [h]
    have hres := ih _ _ hl hw
    simpa [joinBytes, List.append_assoc] using hres

/-- Witness for C6: two successful writes on a concrete session deliver the
concatenated payloads. -/
theorem C6_witness :
    lookupReg [("a", PtyEntry.mk 1 ⟨80, 24, 0, 0⟩ [104, 105, 33])] "a" =
      some (PtyEntry.mk 1 ⟨80, 24, 0, 0⟩ ([] ++ joinBytes [[104, 105], [33]])) :=
  C6_write_concat [("a", PtyEntry.mk 1 ⟨80, 24, 0, 0⟩ [])]
    [("a", PtyEntry.mk 1 ⟨80, 24, 0, 0⟩ [104, 105, 33])] "a"
    (PtyEntry.mk 1 ⟨80, 24, 0, 0⟩ []) [[104, 105], [33]] (by rfl) (by rfl)

/-- C7 counterexample: start_pty performs no host validation.  With an empty
host string and every external effect succeeding, the call returns the fresh
session id, spawns telnet with the empty string as its host argument, and
registers a session, instead of failing with an error and creating no
session as the claim states. -/
theorem C7_counterexample :
    start_pty okEnv [] "" none none none = Except.ok
      { registry := [("S1", { child := 1, size := ⟨80, 24, 0, 0⟩, written := [] })],
        id := "S1", cmd := { program := "telnet", args := ["", "23"] },
        size := ⟨80, 24, 0, 0⟩ } := rfl

/-- C7 amended: start_pty does not validate the host.  A call with an empty
host string passes the empty string through as the telnet host argument and,
whenever pty allocation, spawning, reader and writer acquisition and registry
locking succeed, returns successfully with a registered session. -/
theorem C7_no_host_validation (env : StartEnv) (reg : PtyRegistry)
    (port cols rows : Option Nat) (h1 : env.openptyErr = none)
    (h2 : env.spawnErr = none) (h3 : env.readerErr = none)
    (h4 : env.writerErr = none) (h5 : env.lockFail = false) :
    ∃ out, start_pty env reg "" port cols rows = Except.ok out ∧
      out.cmd.args = ["", toString (port.getD 23)] ∧
      lookupReg out.registry env.newId =
        some { child := env.newChild,
               size := { cols := cols.getD 80, rows := rows.getD 24,
                         pixel_width := 0, pixel_height := 0 },
               written := [] } := by
  refine ⟨{ registry :=
              insertReg reg env.newId
                { child := env.newChild,
                  size := { cols := cols.getD 80, rows := rows.getD 24,
                            pixel_width := 0, pixel_height := 0 },
                  written := [] }
            id := env.newId
            cmd := { program := "telnet", args := ["", toString (port.getD 23)] }
            size := { cols := cols.getD 80, rows := rows.getD 24,
                      pixel_width := 0, pixel_height := 0 } }, ?_, rfl, ?_⟩
  · simp [start_pty, h1, h2, h3, h4, h5]
  · exact lookupReg_insert reg env.newId _

/-- Witness for the amended C7 in the all-succeeding environment. -/
theorem C7_witness :
    ∃ out, start_pty okEnv [] "" none none none = Except.ok out ∧
      out.cmd.args = ["", "23"] ∧
      lookupReg out.registry "S1" =
        some { child := 1, size := ⟨80, 24, 0, 0⟩, written := [] } :=
  C7_no_host_validation okEnv [] none none none rfl rfl rfl rfl rfl

/-- C8: kill_pty discards the outcome of the kill signal: for every outcome,
including a failed termination, it removes the entry and returns success. -/
theorem C8_kill_discards_result (reg : PtyRegistry) (sid : String)
    (kr : Except String Unit) :
    kill_pty reg sid kr = (eraseReg reg sid, Except.ok ()) ∧
    lookupReg (kill_pty reg sid kr).1 sid = none := by
  have hmain : kill_pty reg sid kr = (eraseReg reg sid, Except.ok ()) := by
    cases hl : lookupReg reg sid with
    | some e0 => simp [kill_pty, hl]
    | none => simp [kill_pty, hl, eraseReg_eq_of_lookup_none reg sid hl]
  refine ⟨hmain, ?_⟩
  rw [hmain]
  simp [lookupReg_erase]

/-- Witness for C8 with a concrete registry and a failing kill signal. -/
theorem C8_witness :
    kill_pty [("a", PtyEntry.mk 1 ⟨80, 24, 0, 0⟩ [])] "a"
        (Except.error "kill failed") =
      (eraseReg [("a", PtyEntry.mk 1 ⟨80, 24, 0, 0⟩ [])] "a", Except.ok ()) :=
  (C8_kill_discards_result [("a", PtyEntry.mk 1 ⟨80, 24, 0, 0⟩ [])] "a"
    (Except.error "kill failed")).1

/-- C9: consume_pending_telnet_actions returns all pending actions in
accumulation order, leaves the queue empty, and an immediate second call
returns the empty list. -/
theorem C9_consume_drains (q : List TelnetAction) :
    (consume_pending_telnet_actions q).1 = q ∧
    (consume_pending_telnet_actions q).2 = [] ∧
    (consume_pending_telnet_actions (consume_pending_telnet_actions q).2).1 = [] :=
  ⟨rfl, rfl, rfl⟩

/-- Witness for C9 on a one-element queue. -/
theorem C9_witness :
    (consume_pending_telnet_actions
        [TelnetAction.openAction ⟨"h", none, none⟩]).1 =
      [TelnetAction.openAction ⟨"h", none, none⟩] :=
  (C9_consume_drains [TelnetAction.openAction ⟨"h", none, none⟩]).1

/-- C10: parse_telnet_url returns none whenever the trimmed input is empty;
otherwise it hands the parser the trimmed input coerced to carry the scheme,
where the coercion prepends "telnet://" exactly when the lowercased input
does not already start with it; and every successfully parsed request has no
label, the host reported by the URL parse, and the port reported by the URL
parse. -/
theorem C10_parse_telnet_url_contract (urlParse : String → Option ParsedUrl)
    (url : String) :
    (rustTrim url = "" → parse_telnet_url urlParse url = none) ∧
    (rustTrim url ≠ "" → parse_telnet_url urlParse url =
      requestOfParsed (urlParse (coerceScheme (rustTrim url)))) ∧
    (rustStartsWith (rustToLower (rustTrim url)) "telnet://" = false →
      coerceScheme (rustTrim url) = "telnet://" ++ rustTrim url) ∧
    (rustStartsWith (rustToLower (rustTrim url)) "telnet://" = true →
      coerceScheme (rustTrim url) = rustTrim url) ∧
    (∀ req, parse_telnet_url urlParse url = some req →
      req.label = none ∧ ∃ p, urlParse (coerceScheme (rustTrim url)) = some p ∧
        p.host_str = some req.host ∧ req.port = p.port) := by
  refine ⟨?_, ?_, ?_, ?_, ?_⟩
  · intro h
    simp [parse_telnet_url, h]
  · intro h
    simp [parse_telnet_url, h]
  · intro h
    simp [coerceScheme, h]
  · intro h
    simp [coerceScheme, h]
  · intro req h
    by_cases ht : rustTrim url = ""
    · simp [parse_telnet_url, ht] at h
    · simp [parse_telnet_url, ht] at h
      cases hp : urlParse (coerceScheme (rustTrim url)) with
      | none => simp [requestOfParsed, hp] at h
      | some p =>
        cases hh : p.host_str with
        | none => simp [requestOfParsed, hp, hh] at h
        | some hostVal =>
          simp [requestOfParsed, hp, hh] at h
          subst h
          exact ⟨rfl, p, rfl, hh, rfl⟩

/-- Witness for C10 on a concrete scheme-less input with surrounding
whitespace, under the example parser. -/
theorem C10_witness :
    parse_telnet_url exampleUrlParse " Example.com:2323 " =
      requestOfParsed (exampleUrlParse (coerceScheme (rustTrim " Example.com:2323 "))) ∧
    coerceScheme (rustTrim " Example.com:2323 ") =
      "telnet://" ++ rustTrim " Example.com:2323 " :=
  ⟨(C10_parse_telnet_url_contract exampleUrlParse " Example.com:2323 ").2.1
      (by decide),
   (C10_parse_telnet_url_contract exampleUrlParse " Example.com:2323 ").2.2.1
      (by decide)⟩

end PnetTool
